import Mathlib

/-!
# RSA key provisioning: a shallow embedding

The development models the C++ sources of the key generator add-on:

* `platform_utils.cpp` : `PlatformUtils::getPlatform`, `PlatformUtils::getRSAKeyLength`
* `keyring.cpp`        : `Keyring::isAvailable`, `Keyring::getPassword`, `Keyring::setPassword`,
                         `Keyring::getPasswordLinux`
* `rsa_generator.cpp`  : `RSAGenerator::generateKeys`, `retrieveKeysFromKeyring`,
                         `storeKeysInKeyring`, `getOrGenerateKeys`
* `napi_wrapper.cpp`   : `GenerateKeys`, `GetPublicKey`, `GetPrivateKey`, `RegenerateKeys`

The operating system vault and the OpenSSL key generator are external: they are
parameters of the model (`Native`, `Config.generate`).  Every call that reaches
them is recorded in the `World`, so that statements such as "no vault lookup is
performed" or "the generator is invoked once, at 1024 bits" can be written down.
-/

namespace KeysGen

/-! ## Data model -/

deriving instance DecidableEq for Except

/-- The struct `KeyPair` of `rsa_generator.h`: two PEM texts. -/
structure KeyPair where
  publicKey : String
  privateKey : String
deriving DecidableEq, Repr

/-- The enum `Platform` of `platform_utils.h`. -/
inductive Platform where
  | Windows
  | Linux
  | macOS
  | Unknown
deriving DecidableEq, Repr

/-- The preprocessor configuration the sources branch on: `_WIN32`, `__linux__`
(with or without `HAVE_LIBSECRET`), `__APPLE__`, or none of them. -/
inductive Build where
  | win32
  | linux (haveLibsecret : Bool)
  | apple
  | other
deriving DecidableEq, Repr

/-- One call that reached the native vault. -/
inductive VaultOp where
  | get (service account : String)
  | put (service account password : String)
deriving DecidableEq, Repr

/-- The native vault of the platform (`getPasswordWindows` / `getPasswordLinux` /
`getPasswordMacOS` and the matching `setPassword...`), over a vault state `σ`.
A lookup may change the state (a backend may fail once and succeed later);
a store reports success or failure. -/
structure Native (σ : Type) where
  lookup : σ → String → String → Option String × σ
  store : σ → String → String → String → Bool × σ

/-- Everything fixed during a call: the build, the native vault, the key
generator and the value of `std::getenv("RSA_KEY_LENGTH")`.

`generate log bits` is what `RSAGenerator::generateKeys(bits)` does when `log`
lists the bit lengths of the earlier invocations: `.ok (some k)` is a returned
pair, `.ok none` is one of its `return std::nullopt` paths, and `.error ()` is a
C++ exception leaving the function (the `try`/`catch (...)` blocks of
`napi_wrapper.cpp` react to that case only). -/
structure Config (σ : Type) where
  build : Build
  native : Native σ
  generate : List Int → Int → Except Unit (Option KeyPair)
  getenvRsaKeyLength : Option String

/-- The mutable part: the vault state, the log of native vault calls and the
log of bit lengths handed to the generator (oldest first). -/
structure World (σ : Type) where
  vault : σ
  vaultLog : List VaultOp
  genLog : List Int

/-! ## platform_utils.cpp -/

/-- Model of `PlatformUtils::getPlatform`. -/
def PlatformUtils.getPlatform : Build → Platform
  | .win32 => .Windows
  | .linux _ => .Linux
  | .apple => .macOS
  | .other => .Unknown

/-- The C locale `isspace`, which `strtol` uses to skip leading blanks. -/
def isspace (c : Char) : Bool :=
  c = ' ' || c = '\t' || c = '\n' || c = '\x0b' || c = '\x0c' || c = '\r'

/-- Value of a run of decimal digits, most significant first. -/
def digitsValue (ds : List Char) : Int :=
  ds.foldl (fun acc c => 10 * acc + ((c.toNat : Int) - 48)) 0

/-- The standard library call `std::stoi(str)` (base 10): skip leading white
space, accept one optional sign, read the longest run of digits and ignore
whatever follows.  `none` stands for the two exceptions it throws:
`std::invalid_argument` when there is no digit to read, `std::out_of_range`
when the value does not fit in a 32 bit `int`. -/
def stoi (s : String) : Option Int :=
  let cs := s.toList.dropWhile isspace
  let signed : Bool × List Char :=
    match cs with
    | c :: r => if c = '-' then (true, r) else if c = '+' then (false, r) else (false, cs)
    | [] => (false, [])
  let ds := signed.2.takeWhile Char.isDigit
  if ds.isEmpty then none
  else
    let v := if signed.1 then - digitsValue ds else digitsValue ds
    if -2147483648 ≤ v ∧ v ≤ 2147483647 then some v else none

/-- Model of `PlatformUtils::getRSAKeyLength`, from the value of `getenv`. -/
def PlatformUtils.getRSAKeyLength (envVar : Option String) : Int :=
  match envVar with
  | some v =>
    match stoi v with
    | some n => n
    | none => 2048
  | none => 2048

/-! ## keyring.cpp -/

/-- Model of `Keyring::isAvailable`. -/
def Keyring.isAvailable : Build → Bool
  | .win32 => true
  | .linux haveLibsecret => haveLibsecret
  | .apple => true
  | .other => false

/-- Model of `Keyring::getPassword`: the native lookup on a build with a vault,
`std::nullopt` without touching anything on the other builds. -/
def Keyring.getPassword {σ : Type} (cfg : Config σ) (w : World σ)
    (service account : String) : Option String × World σ :=
  if Keyring.isAvailable cfg.build then
    let r := cfg.native.lookup w.vault service account
    (r.1, { w with vault := r.2, vaultLog := w.vaultLog ++ [VaultOp.get service account] })
  else
    (none, w)

/-- Model of `Keyring::setPassword`: the native store on a build with a vault,
`false` without touching anything on the other builds. -/
def Keyring.setPassword {σ : Type} (cfg : Config σ) (w : World σ)
    (service account password : String) : Bool × World σ :=
  if Keyring.isAvailable cfg.build then
    let r := cfg.native.store w.vault service account password
    (r.1, { w with vault := r.2,
                   vaultLog := w.vaultLog ++ [VaultOp.put service account password] })
  else
    (false, w)

/-- The two libsecret schemas `getPasswordLinux` queries: the generic schema of
`get_keyring_schema()` and `SECRET_SCHEMA_COMPAT_NETWORK`. -/
inductive SecretSchema where
  | generic
  | compatNetwork
deriving DecidableEq, Repr

/-- One call of `secret_password_lookup_sync`: the schema and the attribute
name and value pairs handed to it. -/
structure SecretQuery where
  schema : SecretSchema
  attributes : List (String × String)
deriving DecidableEq, Repr

/-- What one call of `secret_password_lookup_sync` leaves behind: whether the
`GError` was set, and the returned pointer (`none` for `NULL`).  A lookup that
reports an error has `error = true`; one that finds the secret `s` has
`error = false` and `password = some s`; one that finds nothing has
`error = false` and `password = none`. -/
structure SecretLookup where
  error : Bool
  password : Option String
deriving DecidableEq, Repr

/-- Model of `Keyring::getPasswordLinux` (libsecret variant).  `lookup` is the
secret service; the second component lists the queries made, in order. -/
def Keyring.getPasswordLinux (lookup : SecretQuery → SecretLookup)
    (service account : String) : Option String × List SecretQuery :=
  let genericQuery : SecretQuery :=
    { schema := .generic, attributes := [("service", service), ("username", account)] }
  let first := lookup genericQuery
  if first.error then
    let networkQuery : SecretQuery :=
      { schema := .compatNetwork, attributes := [("server", service), ("user", account)] }
    let second := lookup networkQuery
    if second.error then
      (none, [genericQuery, networkQuery])
    else
      match second.password with
      | some password => (some password, [genericQuery, networkQuery])
      | none => (none, [genericQuery, networkQuery])
  else
    match first.password with
    | some password => (some password, [genericQuery])
    | none => (none, [genericQuery])

/-! ## rsa_generator.cpp -/

/-- Model of `RSAGenerator::generateKeys`: one invocation of the generator,
recorded in `genLog`. -/
def RSAGenerator.generateKeys {σ : Type} (cfg : Config σ) (w : World σ) (keyLength : Int) :
    Except Unit (Option KeyPair) × World σ :=
  (cfg.generate w.genLog keyLength, { w with genLog := w.genLog ++ [keyLength] })

/-- Model of `RSAGenerator::retrieveKeysFromKeyring`. -/
def RSAGenerator.retrieveKeysFromKeyring {σ : Type} (cfg : Config σ) (w : World σ)
    (serviceName : String) : Option KeyPair × World σ :=
  if !Keyring.isAvailable cfg.build then
    (none, w)
  else
    let publicKeyService := serviceName ++ "PublicKey"
    let privateKeyService := serviceName ++ "PrivateKey"
    let publicKey := Keyring.getPassword cfg w publicKeyService "key"
    let privateKey := Keyring.getPassword cfg publicKey.2 privateKeyService "key"
    match publicKey.1, privateKey.1 with
    | some pub, some priv => (some { publicKey := pub, privateKey := priv }, privateKey.2)
    | _, _ => (none, privateKey.2)

/-- Model of `RSAGenerator::storeKeysInKeyring`. -/
def RSAGenerator.storeKeysInKeyring {σ : Type} (cfg : Config σ) (w : World σ)
    (keys : KeyPair) (serviceName : String) : Bool × World σ :=
  if !Keyring.isAvailable cfg.build then
    (false, w)
  else
    let publicKeyService := serviceName ++ "PublicKey"
    let privateKeyService := serviceName ++ "PrivateKey"
    let pubSuccess := Keyring.setPassword cfg w publicKeyService "key" keys.publicKey
    let privSuccess := Keyring.setPassword cfg pubSuccess.2 privateKeyService "key" keys.privateKey
    (pubSuccess.1 && privSuccess.1, privSuccess.2)

/-- Model of `RSAGenerator::getOrGenerateKeys`.  An exception of the generator
is not caught here and leaves the function. -/
def RSAGenerator.getOrGenerateKeys {σ : Type} (cfg : Config σ) (w : World σ)
    (serviceName : String) (keyLength : Int) : Except Unit (Option KeyPair) × World σ :=
  let existingKeys := RSAGenerator.retrieveKeysFromKeyring cfg w serviceName
  match existingKeys.1 with
  | some keys => (.ok (some keys), existingKeys.2)
  | none =>
    let newKeys := RSAGenerator.generateKeys cfg existingKeys.2 keyLength
    match newKeys.1 with
    | .ok (some keys) =>
      let stored := RSAGenerator.storeKeysInKeyring cfg newKeys.2 keys serviceName
      (.ok (some keys), stored.2)
    | .ok none => (.ok none, newKeys.2)
    | .error e => (.error e, newKeys.2)

/-! ## napi_wrapper.cpp -/

/-- An argument of a binding-layer call.  `number n` carries the result of
`Int32Value()`; `other` is any value that is neither a string nor a number. -/
inductive JsValue where
  | string (s : String)
  | number (n : Int)
  | other
deriving DecidableEq, Repr

/-- What a binding-layer function hands back: a string, `env.Null()`, or
`env.Null()` after raising the `TypeError` for a missing service name. -/
inductive JsResult where
  | string (s : String)
  | null
  | typeError
deriving DecidableEq, Repr

/-- The tail of `GenerateKeys`: `keys->publicKey` when a pair is there, else null. -/
def publicKeyOrNull : Option KeyPair → JsResult
  | some keys => .string keys.publicKey
  | none => .null

/-- The local `keyLength` of `GenerateKeys`: the second argument when it is a
number, else `PlatformUtils::getRSAKeyLength()`. -/
def GenerateKeys.keyLength {σ : Type} (cfg : Config σ) (rest : List JsValue) : Int :=
  match rest with
  | .number n :: _ => n
  | _ => PlatformUtils.getRSAKeyLength cfg.getenvRsaKeyLength

/-- Model of `GenerateKeys`; `info` is the argument list. -/
def GenerateKeys {σ : Type} (cfg : Config σ) (w : World σ) (info : List JsValue) :
    JsResult × World σ :=
  match info with
  | .string serviceName :: rest =>
    let keyLength := GenerateKeys.keyLength cfg rest
    if PlatformUtils.getPlatform cfg.build = Platform.Windows then
      let r := RSAGenerator.getOrGenerateKeys cfg w serviceName 1024
      match r.1 with
      | .ok keys => (publicKeyOrNull keys, r.2)
      | .error _ => (.null, r.2)
    else
      let r := RSAGenerator.getOrGenerateKeys cfg w serviceName keyLength
      match r.1 with
      | .ok keys => (publicKeyOrNull keys, r.2)
      | .error _ =>
        let r2 := RSAGenerator.getOrGenerateKeys cfg r.2 serviceName 1024
        match r2.1 with
        | .ok keys => (publicKeyOrNull keys, r2.2)
        | .error _ => (.null, r2.2)
  | _ => (.typeError, w)

/-- Model of `GetPublicKey`. -/
def GetPublicKey {σ : Type} (cfg : Config σ) (w : World σ) (info : List JsValue) :
    JsResult × World σ :=
  match info with
  | .string serviceName :: _ =>
    if !Keyring.isAvailable cfg.build then
      (.null, w)
    else
      let publicKeyService := serviceName ++ "PublicKey"
      let publicKey := Keyring.getPassword cfg w publicKeyService "key"
      match publicKey.1 with
      | some v => (.string v, publicKey.2)
      | none => (.null, publicKey.2)
  | _ => (.typeError, w)

/-- Model of `GetPrivateKey`. -/
def GetPrivateKey {σ : Type} (cfg : Config σ) (w : World σ) (info : List JsValue) :
    JsResult × World σ :=
  match info with
  | .string serviceName :: _ =>
    if !Keyring.isAvailable cfg.build then
      (.null, w)
    else
      let privateKeyService := serviceName ++ "PrivateKey"
      let privateKey := Keyring.getPassword cfg w privateKeyService "key"
      match privateKey.1 with
      | some v => (.string v, privateKey.2)
      | none => (.null, privateKey.2)
  | _ => (.typeError, w)

/-- Model of `RegenerateKeys`. -/
def RegenerateKeys {σ : Type} (cfg : Config σ) (w : World σ) (info : List JsValue) :
    JsResult × World σ :=
  match info with
  | .string serviceName :: rest =>
    let keyLength : Int :=
      match rest with
      | .number n :: _ => n
      | _ => 2048
    let keys := RSAGenerator.generateKeys cfg w keyLength
    match keys.1 with
    | .ok (some k) =>
      if Keyring.isAvailable cfg.build then
        let publicKeyService := serviceName ++ "PublicKey"
        let privateKeyService := serviceName ++ "PrivateKey"
        let w1 := (Keyring.setPassword cfg keys.2 publicKeyService "key" k.publicKey).2
        let w2 := (Keyring.setPassword cfg w1 privateKeyService "key" k.privateKey).2
        (.string k.publicKey, w2)
      else
        (.string k.publicKey, keys.2)
    | .ok none => (.null, keys.2)
    | .error _ => (.null, keys.2)
  | _ => (.typeError, w)

/-! ## Concrete vaults used to run the model -/

/-- A vault as a map from `(service, account)` to the secret. -/
abbrev MapVault := String → String → Option String

/-- The vault with no entry. -/
def MapVault.empty : MapVault := fun _ _ => none

/-- A map vault: a store always succeeds and overwrites, a lookup returns the
last value stored and changes nothing. -/
def mapNative : Native MapVault where
  lookup := fun v service account => (v service account, v)
  store := fun v service account password =>
    (true, fun s a => if s = service ∧ a = account then some password else v s a)

/-- A map vault whose stores follow a script: every store consumes the next
flag, succeeds and overwrites when the flag is `true`, fails and changes
nothing when it is `false` (or when the script is exhausted). -/
def scriptedNative : Native (MapVault × List Bool) where
  lookup := fun v service account => (v.1 service account, v)
  store := fun v service account password =>
    match v.2 with
    | true :: rest =>
      (true, (fun s a => if s = service ∧ a = account then some password else v.1 s a, rest))
    | false :: rest => (false, (v.1, rest))
    | [] => (false, v)

/-- The world before any call, over a given vault state. -/
def World.init {σ : Type} (v : σ) : World σ :=
  { vault := v, vaultLog := [], genLog := [] }

/-- A configuration over the map vault. -/
def mapConfig (build : Build) (generate : List Int → Int → Except Unit (Option KeyPair))
    (envVar : Option String) : Config MapVault :=
  { build := build, native := mapNative, generate := generate, getenvRsaKeyLength := envVar }

/-- A configuration over the scripted vault. -/
def scriptedConfig (build : Build) (generate : List Int → Int → Except Unit (Option KeyPair))
    (envVar : Option String) : Config (MapVault × List Bool) :=
  { build := build, native := scriptedNative, generate := generate,
    getenvRsaKeyLength := envVar }

/-- A generator that succeeds every time, with one pair on its first invocation
and another pair on every later one. -/
def freshGenerate : List Int → Int → Except Unit (Option KeyPair) :=
  fun log _ =>
    if log.isEmpty then .ok (some { publicKey := "PUB-A", privateKey := "PRIV-A" })
    else .ok (some { publicKey := "PUB-B", privateKey := "PRIV-B" })

/-- A generator that only manages 1024 bits: every other length ends in one of
the `return std::nullopt` paths. -/
def only1024Generate : List Int → Int → Except Unit (Option KeyPair) :=
  fun _ bits =>
    if bits = 1024 then .ok (some { publicKey := "PUB-1024", privateKey := "PRIV-1024" })
    else .ok none

/-- A generator that only manages 1024 bits and leaves by an exception at every
other length. -/
def throwingGenerate : List Int → Int → Except Unit (Option KeyPair) :=
  fun _ bits =>
    if bits = 1024 then .ok (some { publicKey := "PUB-1024", privateKey := "PRIV-1024" })
    else .error ()

/-- A map vault that holds the public entry of `svc` and nothing else. -/
def publicOnlyVault : MapVault :=
  fun s a => if s = "svcPublicKey" ∧ a = "key" then some "OLD-PUB" else none

/-- A map vault that holds a complete pair for `svc`. -/
def fullVault : MapVault :=
  fun s a =>
    if s = "svcPublicKey" ∧ a = "key" then some "OLD-PUB"
    else if s = "svcPrivateKey" ∧ a = "key" then some "OLD-PRIV"
    else none

/-- A secret service whose generic schema lookup reports an error while the
legacy network schema holds a secret. -/
def legacyOnlyLookup : SecretQuery → SecretLookup :=
  fun q =>
    match q.schema with
    | .generic => { error := true, password := none }
    | .compatNetwork => { error := false, password := some "LEGACY-SECRET" }

/-- A secret service whose generic schema lookup finds nothing, without error,
while the legacy network schema holds a secret. -/
def shadowedLookup : SecretQuery → SecretLookup :=
  fun q =>
    match q.schema with
    | .generic => { error := false, password := none }
    | .compatNetwork => { error := false, password := some "LEGACY-SECRET" }

/-! ## Auxiliary facts -/

/-- The two storage identifiers of one service differ. -/
theorem publicKeyService_ne_privateKeyService (S : String) :
    S ++ "PublicKey" ≠ S ++ "PrivateKey" := by
  intro h
  have h2 := congrArg String.data h
  simp only [String.data_append, List.append_cancel_left_eq] at h2
  exact absurd h2 (by decide)

/-- Retrieval never invokes the generator. -/
theorem retrieveKeysFromKeyring_genLog {σ : Type} (cfg : Config σ) (w : World σ)
    (S : String) : (RSAGenerator.retrieveKeysFromKeyring cfg w S).2.genLog = w.genLog := by
  simp only [RSAGenerator.retrieveKeysFromKeyring, Keyring.getPassword]
  cases Keyring.isAvailable cfg.build
  · simp
  · simp only [Bool.not_true, Bool.false_eq_true, ↓reduceIte]
    split <;> rfl

/-- Persisting a pair never invokes the generator. -/
theorem storeKeysInKeyring_genLog {σ : Type} (cfg : Config σ) (w : World σ)
    (K : KeyPair) (S : String) :
    (RSAGenerator.storeKeysInKeyring cfg w K S).2.genLog = w.genLog := by
  simp only [RSAGenerator.storeKeysInKeyring, Keyring.setPassword]
  cases Keyring.isAvailable cfg.build <;> simp

/-- A miss of the retrieval step: the outcome of the generator is the result
and the generator log grows by the requested length. -/
theorem getOrGenerateKeys_miss {σ : Type} (cfg : Config σ) (w : World σ)
    (S : String) (L : Int)
    (hmiss : (RSAGenerator.retrieveKeysFromKeyring cfg w S).1 = none) :
    (RSAGenerator.getOrGenerateKeys cfg w S L).1 = cfg.generate w.genLog L ∧
    (RSAGenerator.getOrGenerateKeys cfg w S L).2.genLog = w.genLog ++ [L] := by
  have hlog := retrieveKeysFromKeyring_genLog cfg w S
  simp only [RSAGenerator.getOrGenerateKeys, hmiss, RSAGenerator.generateKeys, hlog]
  cases hg : cfg.generate w.genLog L with
  | error e => simp
  | ok o =>
    cases o
    · simp
    · simp [storeKeysInKeyring_genLog, hlog]

/-- A hit of the retrieval step: the stored pair is the result and the
generator is not invoked. -/
theorem getOrGenerateKeys_hit {σ : Type} (cfg : Config σ) (w : World σ)
    (S : String) (L : Int) (K : KeyPair)
    (hhit : (RSAGenerator.retrieveKeysFromKeyring cfg w S).1 = some K) :
    (RSAGenerator.getOrGenerateKeys cfg w S L).1 = .ok (some K) ∧
    (RSAGenerator.getOrGenerateKeys cfg w S L).2.genLog = w.genLog := by
  have hlog := retrieveKeysFromKeyring_genLog cfg w S
  simp [RSAGenerator.getOrGenerateKeys, hhit, hlog]

/-- One call of `getOrGenerateKeys` invokes the generator at most once, and
then at the length it was given. -/
theorem getOrGenerateKeys_genLog {σ : Type} (cfg : Config σ) (w : World σ)
    (S : String) (L : Int) :
    (RSAGenerator.getOrGenerateKeys cfg w S L).2.genLog = w.genLog ∨
    (RSAGenerator.getOrGenerateKeys cfg w S L).2.genLog = w.genLog ++ [L] := by
  cases h : (RSAGenerator.retrieveKeysFromKeyring cfg w S).1 with
  | none => exact Or.inr (getOrGenerateKeys_miss cfg w S L h).2
  | some K => exact Or.inl (getOrGenerateKeys_hit cfg w S L K h).2

/-- A hit on the map vault: with both entries present the stored pair is
returned, the generator is not invoked and the vault is unchanged. -/
theorem getOrGenerateKeys_map_hit (build : Build)
    (generate : List Int → Int → Except Unit (Option KeyPair)) (envVar : Option String)
    (w : World MapVault) (S : String) (L : Int) (p q : String)
    (havail : Keyring.isAvailable build = true)
    (hp : w.vault (S ++ "PublicKey") "key" = some p)
    (hq : w.vault (S ++ "PrivateKey") "key" = some q) :
    (RSAGenerator.getOrGenerateKeys (mapConfig build generate envVar) w S L).1
        = .ok (some { publicKey := p, privateKey := q }) ∧
    (RSAGenerator.getOrGenerateKeys (mapConfig build generate envVar) w S L).2.genLog
        = w.genLog ∧
    (RSAGenerator.getOrGenerateKeys (mapConfig build generate envVar) w S L).2.vault
        = w.vault := by
  simp [mapConfig, mapNative, RSAGenerator.getOrGenerateKeys,
    RSAGenerator.retrieveKeysFromKeyring, Keyring.getPassword, havail, hp, hq]

/-- On the map vault a returned pair is in the vault afterwards. -/
theorem getOrGenerateKeys_map_stored (build : Build)
    (generate : List Int → Int → Except Unit (Option KeyPair)) (envVar : Option String)
    (w : World MapVault) (S : String) (L : Int) (K : KeyPair)
    (havail : Keyring.isAvailable build = true)
    (hres : (RSAGenerator.getOrGenerateKeys (mapConfig build generate envVar) w S L).1
      = .ok (some K)) :
    (RSAGenerator.getOrGenerateKeys (mapConfig build generate envVar) w S L).2.vault
        (S ++ "PublicKey") "key" = some K.publicKey ∧
    (RSAGenerator.getOrGenerateKeys (mapConfig build generate envVar) w S L).2.vault
        (S ++ "PrivateKey") "key" = some K.privateKey := by
  have hne := publicKeyService_ne_privateKeyService S
  revert hres
  simp only [mapConfig, mapNative, RSAGenerator.getOrGenerateKeys,
    RSAGenerator.retrieveKeysFromKeyring,
    RSAGenerator.generateKeys, RSAGenerator.storeKeysInKeyring, Keyring.getPassword,
    Keyring.setPassword, havail]
  cases h1 : w.vault (S ++ "PublicKey") "key" <;>
  cases h2 : w.vault (S ++ "PrivateKey") "key" <;>
  cases hg : generate w.genLog L with
  | error e =>
    simp [h1, h2, hg, hne]
    try (intro hk; subst hk; simp)
  | ok o =>
    cases o <;> simp [h1, h2, hg, hne] <;> try (intro hk; subst hk; simp [h1, h2, hne])

/-- Leading characters that satisfy the test are all dropped. -/
theorem dropWhile_append_all {p : Char → Bool} (ws r : List Char)
    (h : ∀ c ∈ ws, p c = true) : (ws ++ r).dropWhile p = r.dropWhile p := by
  induction ws with
  | nil => rfl
  | cons c ws ih =>
    have hc : p c = true := h c (List.mem_cons_self c ws)
    simp only [List.cons_append, List.dropWhile_cons, hc, ↓reduceIte]
    exact ih (fun d hd => h d (List.mem_cons_of_mem c hd))

/-- Nothing is dropped when the first character fails the test. -/
theorem dropWhile_head_false {p : Char → Bool} (r : List Char)
    (h : ∀ c ∈ r.head?, p c = false) : r.dropWhile p = r := by
  cases r with
  | nil => rfl
  | cons c r => simp [List.dropWhile_cons, h c (by simp)]

/-- Leading characters that satisfy the test are all taken. -/
theorem takeWhile_append_all {p : Char → Bool} (ds r : List Char)
    (h : ∀ c ∈ ds, p c = true) : (ds ++ r).takeWhile p = ds ++ r.takeWhile p := by
  induction ds with
  | nil => rfl
  | cons c ds ih =>
    have hc : p c = true := h c (List.mem_cons_self c ds)
    simp only [List.cons_append, List.takeWhile_cons, hc, ↓reduceIte]
    rw [ih (fun d hd => h d (List.mem_cons_of_mem c hd))]

/-- Nothing is taken when the first character fails the test. -/
theorem takeWhile_head_false {p : Char → Bool} (r : List Char)
    (h : ∀ c ∈ r.head?, p c = false) : r.takeWhile p = [] := by
  cases r with
  | nil => rfl
  | cons c r => simp [List.takeWhile_cons, h c (by simp)]

/-- A decimal digit is neither white space nor a sign. -/
theorem isDigit_not_space_or_sign (c : Char) (h : c.isDigit = true) :
    isspace c = false ∧ c ≠ '-' ∧ c ≠ '+' := by
  refine ⟨?_, ?_, ?_⟩
  · cases hs : isspace c with
    | false => rfl
    | true =>
      simp only [isspace, Bool.or_eq_true, decide_eq_true_eq] at hs
      rcases hs with ((((hs | hs) | hs) | hs) | hs) | hs <;> subst hs <;>
        exact absurd h (by decide)
  · intro hc; subst hc; exact absurd h (by decide)
  · intro hc; subst hc; exact absurd h (by decide)

/-- What `stoi` does once the leading white space is gone and the text starts
with a digit: it reads the digits and checks the range. -/
theorem stoi_digits (ws ds rest : List Char) (neg : Bool)
    (hws : ∀ c ∈ ws, isspace c = true)
    (hne : ds ≠ []) (hds : ∀ c ∈ ds, c.isDigit = true)
    (hrest : ∀ c ∈ rest.head?, c.isDigit = false)
    (sign : List Char) (hsign : (neg = true ∧ sign = ['-']) ∨
      (neg = false ∧ (sign = ['+'] ∨ sign = []))) :
    stoi (String.mk (ws ++ sign ++ ds ++ rest)) =
      (if -2147483648 ≤ (if neg then - digitsValue ds else digitsValue ds) ∧
          (if neg then - digitsValue ds else digitsValue ds) ≤ 2147483647
        then some (if neg then - digitsValue ds else digitsValue ds) else none) := by
  obtain ⟨d, ds', rfl⟩ := List.exists_cons_of_ne_nil hne
  have hd := isDigit_not_space_or_sign d (hds d (List.mem_cons_self d ds'))
  have htake : (d :: ds' ++ rest).takeWhile Char.isDigit = d :: ds' := by
    rw [takeWhile_append_all _ _ hds, takeWhile_head_false _ hrest, List.append_nil]
  simp only [stoi, String.toList, List.append_assoc]
  rw [dropWhile_append_all _ _ hws]
  rcases hsign with ⟨hn, hs⟩ | ⟨hn, hs | hs⟩ <;> subst hn <;> subst hs
  · have h1 : (['-'] ++ (d :: ds' ++ rest)).dropWhile isspace = '-' :: (d :: ds' ++ rest) := by
      apply dropWhile_head_false; intro c hc; simp at hc; subst hc; decide
    rw [h1]
    simp only [↓reduceIte, htake, List.isEmpty_cons, Bool.false_eq_true]
  · have h1 : (['+'] ++ (d :: ds' ++ rest)).dropWhile isspace = '+' :: (d :: ds' ++ rest) := by
      apply dropWhile_head_false; intro c hc; simp at hc; subst hc; decide
    rw [h1]
    have : ('+' = '-') = False := by decide
    simp only [this, ↓reduceIte, htake, List.isEmpty_cons, Bool.false_eq_true]
  · have h1 : ([] ++ (d :: ds' ++ rest)).dropWhile isspace = d :: (ds' ++ rest) := by
      apply dropWhile_head_false; intro c hc; simp at hc; subst hc; exact hd.1
    rw [h1]
    simp only [hd.2.1, hd.2.2, ↓reduceIte]
    rw [show d :: (ds' ++ rest) = d :: ds' ++ rest from rfl, htake]
    simp only [List.isEmpty_cons, Bool.false_eq_true, ↓reduceIte]

/-- Without a digit in the right place `stoi` throws. -/
theorem stoi_no_digits (ws rest : List Char)
    (hws : ∀ c ∈ ws, isspace c = true)
    (hrest : ∀ c ∈ rest.head?, c.isDigit = false) :
    stoi (String.mk (ws ++ '-' :: rest)) = none ∧
    stoi (String.mk (ws ++ '+' :: rest)) = none ∧
    ((∀ c ∈ rest.head?, isspace c = false ∧ c ≠ '-' ∧ c ≠ '+') →
      stoi (String.mk (ws ++ rest)) = none) := by
  have htake := takeWhile_head_false (p := Char.isDigit) rest hrest
  refine ⟨?_, ?_, ?_⟩
  · simp only [stoi, String.toList]
    rw [dropWhile_append_all _ _ hws]
    have h1 : ('-' :: rest).dropWhile isspace = '-' :: rest := by
      apply dropWhile_head_false; intro c hc; simp at hc; subst hc; decide
    rw [h1]
    simp [htake]
  · simp only [stoi, String.toList]
    rw [dropWhile_append_all _ _ hws]
    have h1 : ('+' :: rest).dropWhile isspace = '+' :: rest := by
      apply dropWhile_head_false; intro c hc; simp at hc; subst hc; decide
    rw [h1]
    have : ('+' = '-') = False := by decide
    simp [htake, this]
  · intro hh
    simp only [stoi, String.toList]
    rw [dropWhile_append_all _ _ hws]
    rw [dropWhile_head_false rest (fun c hc => (hh c hc).1)]
    cases rest with
    | nil => simp
    | cons c r =>
      have hc := hh c (by simp)
      simp only [hc.2.1, hc.2.2, ↓reduceIte, htake]
      simp

/-- C1: a vault in which exactly one of the two entries of `S` is present is a
full miss for `getOrGenerateKeys`: the generator is invoked at `L` and its
outcome is the result.  More generally the call returns a pair taken from the
vault, without invoking the generator, if and only if the vault is available
and both lookups return a value. -/
theorem C1_partial_entry_is_full_miss {σ : Type} (cfg : Config σ) (w : World σ)
    (S : String) (L : Int) :
    let pub := Keyring.getPassword cfg w (S ++ "PublicKey") "key"
    let priv := Keyring.getPassword cfg pub.2 (S ++ "PrivateKey") "key"
    let r := RSAGenerator.getOrGenerateKeys cfg w S L
    (pub.1.isSome ≠ priv.1.isSome →
        r.1 = cfg.generate w.genLog L ∧ r.2.genLog = w.genLog ++ [L]) ∧
    ((r.2.genLog = w.genLog ∧
        ∃ p q, pub.1 = some p ∧ priv.1 = some q ∧
          r.1 = .ok (some { publicKey := p, privateKey := q })) ↔
      (Keyring.isAvailable cfg.build = true ∧ pub.1.isSome = true ∧ priv.1.isSome = true)) := by
  intro pub priv r
  simp only [pub, priv, r, RSAGenerator.getOrGenerateKeys, RSAGenerator.retrieveKeysFromKeyring,
    RSAGenerator.generateKeys, RSAGenerator.storeKeysInKeyring, Keyring.getPassword,
    Keyring.setPassword]
  cases hav : Keyring.isAvailable cfg.build
  · cases hg : cfg.generate w.genLog L with
    | error e => simp
    | ok o => cases o <;> simp
  · cases h1 : (cfg.native.lookup w.vault (S ++ "PublicKey") "key").1 <;>
    cases h2 : (cfg.native.lookup (cfg.native.lookup w.vault (S ++ "PublicKey") "key").2
        (S ++ "PrivateKey") "key").1 <;>
    cases hg : cfg.generate w.genLog L with
    | error e => simp [h1, h2, hg]
    | ok o => cases o <;> simp [h1, h2, hg]

/-- C1 at a vault holding only the public entry of `svc`: the stored half is
not returned, the generator runs at 2048 bits and its pair is the result. -/
theorem C1_partial_entry_is_full_miss_witness :
    (RSAGenerator.getOrGenerateKeys (mapConfig .apple freshGenerate none)
        (World.init publicOnlyVault) "svc" 2048).1
      = .ok (some { publicKey := "PUB-A", privateKey := "PRIV-A" }) ∧
    (RSAGenerator.getOrGenerateKeys (mapConfig .apple freshGenerate none)
        (World.init publicOnlyVault) "svc" 2048).2.genLog = [2048] :=
  (C1_partial_entry_is_full_miss (mapConfig .apple freshGenerate none)
    (World.init publicOnlyVault) "svc" 2048).1 (by decide)

/-- C2: miss-then-hit over an available map vault.  Starting from a vault with
no entry for `S`, if the first `getOrGenerateKeys(S, L1)` generates the pair
`K`, then it returns `K` and a following `getOrGenerateKeys(S, L2)` returns
exactly `K` without invoking the generator, whatever `L2` is. -/
theorem C2_miss_then_hit (build : Build)
    (generate : List Int → Int → Except Unit (Option KeyPair)) (envVar : Option String)
    (w : World MapVault) (S : String) (L1 L2 : Int) (K : KeyPair)
    (havail : Keyring.isAvailable build = true)
    (hempty : w.vault (S ++ "PublicKey") "key" = none ∧
      w.vault (S ++ "PrivateKey") "key" = none)
    (hgen : generate w.genLog L1 = .ok (some K)) :
    let cfg := mapConfig build generate envVar
    let first := RSAGenerator.getOrGenerateKeys cfg w S L1
    let second := RSAGenerator.getOrGenerateKeys cfg first.2 S L2
    first.1 = .ok (some K) ∧ first.2.genLog = w.genLog ++ [L1] ∧
    second.1 = .ok (some K) ∧ second.2.genLog = first.2.genLog := by
  intro cfg first second
  have hne := publicKeyService_ne_privateKeyService S
  simp [cfg, first, second, mapConfig, mapNative, RSAGenerator.getOrGenerateKeys,
    RSAGenerator.retrieveKeysFromKeyring,
    RSAGenerator.generateKeys, RSAGenerator.storeKeysInKeyring, Keyring.getPassword,
    Keyring.setPassword, havail, hempty.1, hempty.2, hgen, hne]

/-- C2 at the empty vault: the pair generated for `svc` at 2048 bits comes back
on a second call that asks for 1024 bits, and the generator ran once. -/
theorem C2_miss_then_hit_witness :
    let cfg := mapConfig .apple freshGenerate none
    let first := RSAGenerator.getOrGenerateKeys cfg (World.init MapVault.empty) "svc" 2048
    let second := RSAGenerator.getOrGenerateKeys cfg first.2 "svc" 1024
    first.1 = .ok (some { publicKey := "PUB-A", privateKey := "PRIV-A" }) ∧
    first.2.genLog = [2048] ∧
    second.1 = .ok (some { publicKey := "PUB-A", privateKey := "PRIV-A" }) ∧
    second.2.genLog = first.2.genLog :=
  C2_miss_then_hit .apple freshGenerate none (World.init MapVault.empty) "svc" 2048 1024
    { publicKey := "PUB-A", privateKey := "PRIV-A" } (by decide) (by decide) (by decide)

/-- C3, as stated, fails.  On a build without a vault two calls in a row return
the two different pairs of the generator; on a build with a vault whose private
write fails the second call is a partial-entry miss and generates again. -/
theorem C3_counterexample :
    (let cfg := mapConfig .other freshGenerate none
     let first := RSAGenerator.getOrGenerateKeys cfg (World.init MapVault.empty) "svc" 2048
     let second := RSAGenerator.getOrGenerateKeys cfg first.2 "svc" 2048
     first.1 = .ok (some { publicKey := "PUB-A", privateKey := "PRIV-A" }) ∧
     second.1 = .ok (some { publicKey := "PUB-B", privateKey := "PRIV-B" }) ∧
     first.1 ≠ second.1) ∧
    (let cfg := scriptedConfig .apple freshGenerate none
     let first :=
       RSAGenerator.getOrGenerateKeys cfg (World.init (MapVault.empty, [true, false])) "svc" 2048
     let second := RSAGenerator.getOrGenerateKeys cfg first.2 "svc" 2048
     first.1 = .ok (some { publicKey := "PUB-A", privateKey := "PRIV-A" }) ∧
     second.1 = .ok (some { publicKey := "PUB-B", privateKey := "PRIV-B" }) ∧
     first.1 ≠ second.1) := by
  decide

/-- C3, amended: over an available map vault, if `getOrGenerateKeys(S, L1)`
returns a pair then the next `getOrGenerateKeys(S, L2)` returns the identical
pair and does not invoke the generator. -/
theorem C3_idempotent_on_reliable_vault (build : Build)
    (generate : List Int → Int → Except Unit (Option KeyPair)) (envVar : Option String)
    (w : World MapVault) (S : String) (L1 L2 : Int) (K : KeyPair)
    (havail : Keyring.isAvailable build = true)
    (hfirst : (RSAGenerator.getOrGenerateKeys (mapConfig build generate envVar) w S L1).1
      = .ok (some K)) :
    let cfg := mapConfig build generate envVar
    let first := RSAGenerator.getOrGenerateKeys cfg w S L1
    let second := RSAGenerator.getOrGenerateKeys cfg first.2 S L2
    second.1 = .ok (some K) ∧ second.2.genLog = first.2.genLog := by
  intro cfg first second
  have hs := getOrGenerateKeys_map_stored build generate envVar w S L1 K havail hfirst
  have hh := getOrGenerateKeys_map_hit build generate envVar first.2 S L2
    K.publicKey K.privateKey havail hs.1 hs.2
  exact ⟨hh.1, hh.2.1⟩

/-- C3 amended, at a vault that already holds a pair for `svc`: both calls
return the stored pair. -/
theorem C3_idempotent_on_reliable_vault_witness :
    let cfg := mapConfig .apple freshGenerate none
    let first := RSAGenerator.getOrGenerateKeys cfg (World.init fullVault) "svc" 2048
    let second := RSAGenerator.getOrGenerateKeys cfg first.2 "svc" 2048
    second.1 = .ok (some { publicKey := "OLD-PUB", privateKey := "OLD-PRIV" }) ∧
    second.2.genLog = first.2.genLog :=
  C3_idempotent_on_reliable_vault .apple freshGenerate none (World.init fullVault) "svc"
    2048 2048 { publicKey := "OLD-PUB", privateKey := "OLD-PRIV" } (by decide) (by decide)

/-- C4: on a cache miss the result of `getOrGenerateKeys(S, L)` is the outcome
of the generator at `L`, whatever the native vault does with the two writes:
a generated pair is returned as it is, and the call returns absent exactly when
the generator returned absent. -/
theorem C4_miss_returns_generator_outcome {σ : Type} (cfg : Config σ) (w : World σ)
    (S : String) (L : Int)
    (hmiss : (RSAGenerator.retrieveKeysFromKeyring cfg w S).1 = none) :
    let r := RSAGenerator.getOrGenerateKeys cfg w S L
    r.1 = cfg.generate w.genLog L ∧
    r.2.genLog = w.genLog ++ [L] ∧
    (∀ K, cfg.generate w.genLog L = .ok (some K) → r.1 = .ok (some K)) ∧
    (r.1 = .ok none ↔ cfg.generate w.genLog L = .ok none) := by
  intro r
  have hr := getOrGenerateKeys_miss cfg w S L hmiss
  refine ⟨hr.1, hr.2, ?_, ?_⟩
  · intro K hK
    simp only [r]
    rw [hr.1, hK]
  · simp only [r]
    rw [hr.1]

/-- C4 at an empty vault whose writes fail (public only, private only, both):
the generated pair is returned each time. -/
theorem C4_miss_returns_generator_outcome_witness :
    (RSAGenerator.getOrGenerateKeys (scriptedConfig .apple freshGenerate none)
        (World.init (MapVault.empty, [false, true])) "svc" 2048).1
      = .ok (some { publicKey := "PUB-A", privateKey := "PRIV-A" }) ∧
    (RSAGenerator.getOrGenerateKeys (scriptedConfig .apple freshGenerate none)
        (World.init (MapVault.empty, [true, false])) "svc" 2048).1
      = .ok (some { publicKey := "PUB-A", privateKey := "PRIV-A" }) ∧
    (RSAGenerator.getOrGenerateKeys (scriptedConfig .apple freshGenerate none)
        (World.init (MapVault.empty, [false, false])) "svc" 2048).1
      = .ok (some { publicKey := "PUB-A", privateKey := "PRIV-A" }) :=
  ⟨(C4_miss_returns_generator_outcome (scriptedConfig .apple freshGenerate none)
      (World.init (MapVault.empty, [false, true])) "svc" 2048 (by decide)).1,
   (C4_miss_returns_generator_outcome (scriptedConfig .apple freshGenerate none)
      (World.init (MapVault.empty, [true, false])) "svc" 2048 (by decide)).1,
   (C4_miss_returns_generator_outcome (scriptedConfig .apple freshGenerate none)
      (World.init (MapVault.empty, [false, false])) "svc" 2048 (by decide)).1⟩

/-- C5: on a build without a vault `getOrGenerateKeys(S, L)` makes no native
vault call and leaves the vault state alone, invokes the generator once at `L`
and returns its outcome; `RegenerateKeys` makes no native vault call either. -/
theorem C5_unavailable_vault_passthrough {σ : Type} (cfg : Config σ) (w : World σ)
    (S : String) (L : Int) (info : List JsValue)
    (hunavail : Keyring.isAvailable cfg.build = false) :
    let r := RSAGenerator.getOrGenerateKeys cfg w S L
    let g := RegenerateKeys cfg w info
    r.1 = cfg.generate w.genLog L ∧
    r.2.genLog = w.genLog ++ [L] ∧
    r.2.vault = w.vault ∧ r.2.vaultLog = w.vaultLog ∧
    g.2.vault = w.vault ∧ g.2.vaultLog = w.vaultLog := by
  intro r g
  refine ⟨?_, ?_, ?_, ?_, ?_, ?_⟩ <;>
    simp only [r, g, RSAGenerator.getOrGenerateKeys, RSAGenerator.retrieveKeysFromKeyring,
      RSAGenerator.generateKeys, RSAGenerator.storeKeysInKeyring, RegenerateKeys, hunavail]
  · cases hg : cfg.generate w.genLog L with
    | error e => simp [hg]
    | ok o => cases o <;> simp [hg]
  · cases hg : cfg.generate w.genLog L with
    | error e => simp [hg]
    | ok o => cases o <;> simp [hg]
  · cases hg : cfg.generate w.genLog L with
    | error e => simp [hg]
    | ok o => cases o <;> simp [hg]
  · cases hg : cfg.generate w.genLog L with
    | error e => simp [hg]
    | ok o => cases o <;> simp [hg]
  · split
    · split <;> simp
    · rfl
  · split
    · split <;> simp
    · rfl

/-- C5 on the build with no platform macro: the vault, which holds a pair for
`svc`, is not consulted and the fresh pair of the generator is returned. -/
theorem C5_unavailable_vault_passthrough_witness :
    (RSAGenerator.getOrGenerateKeys (mapConfig .other freshGenerate none)
        (World.init fullVault) "svc" 2048).1
      = .ok (some { publicKey := "PUB-A", privateKey := "PRIV-A" }) ∧
    (RSAGenerator.getOrGenerateKeys (mapConfig .other freshGenerate none)
        (World.init fullVault) "svc" 2048).2.vaultLog = [] ∧
    (RegenerateKeys (mapConfig .other freshGenerate none) (World.init fullVault)
        [.string "svc", .number 2048]).2.vaultLog = [] :=
  have h := C5_unavailable_vault_passthrough (mapConfig .other freshGenerate none)
    (World.init fullVault) "svc" 2048 [.string "svc", .number 2048] (by decide)
  ⟨h.1, h.2.2.2.1, h.2.2.2.2.2⟩

/-- C6 (what the code does): on a platform other than Windows, with no pair in
the vault, the 1024 bit retry of `GenerateKeys` is tied to an exception.  When
the generator returns `std::nullopt` at the selected length, `GenerateKeys`
yields null after that single invocation, with no second attempt.  When the
generator leaves by an exception, `getOrGenerateKeys` is called once more at
1024 bits and its outcome decides the result. -/
theorem C6_retry_only_on_exception {σ : Type} (cfg : Config σ)
    (w : World σ) (S : String) (rest : List JsValue)
    (hplat : PlatformUtils.getPlatform cfg.build ≠ Platform.Windows)
    (hmiss : (RSAGenerator.retrieveKeysFromKeyring cfg w S).1 = none) :
    (cfg.generate w.genLog (GenerateKeys.keyLength cfg rest) = .ok none →
      (GenerateKeys cfg w (.string S :: rest)).1 = JsResult.null ∧
      (GenerateKeys cfg w (.string S :: rest)).2.genLog
        = w.genLog ++ [GenerateKeys.keyLength cfg rest]) ∧
    (cfg.generate w.genLog (GenerateKeys.keyLength cfg rest) = .error () →
      (RSAGenerator.retrieveKeysFromKeyring cfg
        (RSAGenerator.getOrGenerateKeys cfg w S (GenerateKeys.keyLength cfg rest)).2 S).1
          = none →
      (GenerateKeys cfg w (.string S :: rest)).1
        = (match cfg.generate (w.genLog ++ [GenerateKeys.keyLength cfg rest]) 1024 with
          | .ok keys => publicKeyOrNull keys
          | .error _ => JsResult.null) ∧
      (GenerateKeys cfg w (.string S :: rest)).2.genLog
        = w.genLog ++ [GenerateKeys.keyLength cfg rest, 1024]) := by
  have h := getOrGenerateKeys_miss cfg w S (GenerateKeys.keyLength cfg rest) hmiss
  constructor
  · intro hfail
    simp only [GenerateKeys, hplat, ↓reduceIte]
    rw [h.1, hfail]
    exact ⟨rfl, h.2⟩
  · intro hraise hmiss2
    have h2 := getOrGenerateKeys_miss cfg _ S 1024 hmiss2
    rw [h.2] at h2
    simp only [GenerateKeys, hplat, ↓reduceIte]
    rw [h.1, hraise]
    simp only [h2.1]
    constructor
    · split <;> rfl
    · have h3 := h2.2
      simp only [List.append_assoc, List.singleton_append] at h3
      split <;> exact h3

/-- C6 at concrete inputs: a Linux build with libsecret and an empty vault.
With a generator that returns `std::nullopt` at 4096 bits and would succeed at
1024, a request for 4096 bits yields null and the generator log is `[4096]`.
With a generator that throws at 4096 bits the retry runs and the log is
`[4096, 1024]`. -/
theorem C6_retry_only_on_exception_witness :
    ((GenerateKeys (mapConfig (.linux true) only1024Generate none)
        (World.init MapVault.empty) [.string "svc", .number 4096]).1 = JsResult.null ∧
     (GenerateKeys (mapConfig (.linux true) only1024Generate none)
        (World.init MapVault.empty) [.string "svc", .number 4096]).2.genLog = [4096]) ∧
    ((GenerateKeys (mapConfig (.linux true) throwingGenerate none)
        (World.init MapVault.empty) [.string "svc", .number 4096]).1
          = JsResult.string "PUB-1024" ∧
     (GenerateKeys (mapConfig (.linux true) throwingGenerate none)
        (World.init MapVault.empty) [.string "svc", .number 4096]).2.genLog = [4096, 1024]) :=
  ⟨(C6_retry_only_on_exception (mapConfig (.linux true) only1024Generate none)
      (World.init MapVault.empty) "svc" [.number 4096] (by decide) (by decide)).1 (by decide),
   (C6_retry_only_on_exception (mapConfig (.linux true) throwingGenerate none)
      (World.init MapVault.empty) "svc" [.number 4096] (by decide) (by decide)).2
      (by decide) (by decide)⟩

/-- C7: on Windows `GenerateKeys` is `getOrGenerateKeys(S, 1024)` whatever the
second argument and the environment say: its effects are those of that call,
its result is the public key of the pair that call returns (null when the call
returns no pair or throws), and the generator is invoked either not at all or
once, at 1024 bits. -/
theorem C7_windows_always_1024 {σ : Type} (cfg : Config σ) (w : World σ) (S : String)
    (rest : List JsValue)
    (hwin : PlatformUtils.getPlatform cfg.build = Platform.Windows) :
    let r := RSAGenerator.getOrGenerateKeys cfg w S 1024
    let g := GenerateKeys cfg w (.string S :: rest)
    g.2 = r.2 ∧
    (∀ keys, r.1 = .ok keys → g.1 = publicKeyOrNull keys) ∧
    (r.1 = .error () → g.1 = JsResult.null) ∧
    (g.2.genLog = w.genLog ∨ g.2.genLog = w.genLog ++ [1024]) := by
  intro r g
  have hg : g.2 = r.2 := by
    simp only [g, r, GenerateKeys, hwin, ↓reduceIte]
    split <;> rfl
  refine ⟨hg, ?_, ?_, ?_⟩
  · intro keys hk
    simp only [g, GenerateKeys, hwin, ↓reduceIte]
    simp only [r] at hk
    rw [hk]
  · intro hk
    simp only [g, GenerateKeys, hwin, ↓reduceIte]
    simp only [r] at hk
    rw [hk]
  · rw [hg]
    exact getOrGenerateKeys_genLog cfg w S 1024

/-- C7 on the Windows build: a request for 2048 bits on an empty vault runs the
generator at 1024 bits and returns that public key. -/
theorem C7_windows_always_1024_witness :
    (GenerateKeys (mapConfig .win32 only1024Generate (some "4096"))
        (World.init MapVault.empty) [.string "svc", .number 2048]).1
      = JsResult.string "PUB-1024" ∧
    (GenerateKeys (mapConfig .win32 only1024Generate (some "4096"))
        (World.init MapVault.empty) [.string "svc", .number 2048]).2.genLog = [1024] := by
  have h := C7_windows_always_1024 (mapConfig .win32 only1024Generate (some "4096"))
    (World.init MapVault.empty) "svc" [.number 2048] (by decide)
  exact ⟨h.2.1 (some { publicKey := "PUB-1024", privateKey := "PRIV-1024" }) (by decide),
    by rw [h.1]; decide⟩

/-- C8: the native vault calls of `getOrGenerateKeys`, `RegenerateKeys`,
`GetPublicKey` and `GetPrivateKey` for the service `S` are determined exactly,
and they address `S ++ "PublicKey"` and `S ++ "PrivateKey"` under the account
`"key"` only.

* `getOrGenerateKeys`: no call without a vault; with a vault, the lookup of the
  public identifier and then of the private one; on a hit the returned pair has
  the value read under the public identifier as `publicKey` and the value read
  under the private identifier as `privateKey`; on a miss with the generated
  pair `K` the lookups are followed by the write of `K.publicKey` under the
  public identifier and of `K.privateKey` under the private identifier, and on
  a miss without a generated pair nothing is written.
* `RegenerateKeys`: with a vault and the generated pair `K`, exactly the write
  of `K.publicKey` under the public identifier and of `K.privateKey` under the
  private identifier; no call otherwise.
* `GetPublicKey` / `GetPrivateKey`: no call without a vault; with a vault one
  lookup of the public / private identifier, whose value is the result. -/
theorem C8_naming_determinism {σ : Type} (cfg : Config σ) (w : World σ) (S : String)
    (L : Int) (rest : List JsValue) :
    let pubId := S ++ "PublicKey"
    let privId := S ++ "PrivateKey"
    let pub := cfg.native.lookup w.vault pubId "key"
    let priv := cfg.native.lookup pub.2 privId "key"
    let regenLength : Int :=
      match rest with
      | .number n :: _ => n
      | _ => 2048
    let r := RSAGenerator.getOrGenerateKeys cfg w S L
    let g := RegenerateKeys cfg w (.string S :: rest)
    let a := GetPublicKey cfg w (.string S :: rest)
    let b := GetPrivateKey cfg w (.string S :: rest)
    (Keyring.isAvailable cfg.build = false → r.2.vaultLog = w.vaultLog) ∧
    (Keyring.isAvailable cfg.build = true →
      (∀ p q, pub.1 = some p → priv.1 = some q →
        r.1 = .ok (some { publicKey := p, privateKey := q }) ∧
        r.2.vaultLog = w.vaultLog ++ [.get pubId "key", .get privId "key"]) ∧
      ((pub.1 = none ∨ priv.1 = none) →
        (∀ K, cfg.generate w.genLog L = .ok (some K) →
          r.1 = .ok (some K) ∧
          r.2.vaultLog = w.vaultLog ++ [.get pubId "key", .get privId "key",
            .put pubId "key" K.publicKey, .put privId "key" K.privateKey]) ∧
        ((∀ K, cfg.generate w.genLog L ≠ .ok (some K)) →
          r.2.vaultLog = w.vaultLog ++ [.get pubId "key", .get privId "key"]))) ∧
    (∀ K, Keyring.isAvailable cfg.build = true →
      cfg.generate w.genLog regenLength = .ok (some K) →
      g.1 = .string K.publicKey ∧
      g.2.vaultLog = w.vaultLog ++ [.put pubId "key" K.publicKey,
        .put privId "key" K.privateKey]) ∧
    ((Keyring.isAvailable cfg.build = false ∨
        ∀ K, cfg.generate w.genLog regenLength ≠ .ok (some K)) →
      g.2.vaultLog = w.vaultLog) ∧
    (Keyring.isAvailable cfg.build = false →
      (a.1 = .null ∧ a.2.vaultLog = w.vaultLog) ∧
      (b.1 = .null ∧ b.2.vaultLog = w.vaultLog)) ∧
    (Keyring.isAvailable cfg.build = true →
      (a.2.vaultLog = w.vaultLog ++ [.get pubId "key"] ∧
        a.1 = (match (cfg.native.lookup w.vault pubId "key").1 with
          | some v => JsResult.string v
          | none => JsResult.null)) ∧
      (b.2.vaultLog = w.vaultLog ++ [.get privId "key"] ∧
        b.1 = (match (cfg.native.lookup w.vault privId "key").1 with
          | some v => JsResult.string v
          | none => JsResult.null))) := by
  intro pubId privId pub priv regenLength r g a b
  refine ⟨?_, ?_, ?_, ?_, ?_, ?_⟩
  · intro hav
    simp only [r, RSAGenerator.getOrGenerateKeys, RSAGenerator.retrieveKeysFromKeyring,
      RSAGenerator.generateKeys, RSAGenerator.storeKeysInKeyring, hav]
    cases hg : cfg.generate w.genLog L with
    | error e => simp [hg]
    | ok o => cases o <;> simp [hg]
  · intro hav
    constructor
    · intro p q hp hq
      simp only [pub, priv, pubId, privId] at hp hq
      simp [r, pubId, privId, RSAGenerator.getOrGenerateKeys,
        RSAGenerator.retrieveKeysFromKeyring, Keyring.getPassword, hav, hp, hq]
    · intro hmiss
      have hret : (RSAGenerator.retrieveKeysFromKeyring cfg w S).1 = none ∧
          (RSAGenerator.retrieveKeysFromKeyring cfg w S).2.vaultLog
            = w.vaultLog ++ [.get pubId "key", .get privId "key"] ∧
          (RSAGenerator.retrieveKeysFromKeyring cfg w S).2.genLog = w.genLog := by
        simp only [pub, priv, pubId, privId] at hmiss
        simp only [pubId, privId, RSAGenerator.retrieveKeysFromKeyring, Keyring.getPassword,
          hav]
        rcases hmiss with h | h
        · simp [h]
        · cases h1 : (cfg.native.lookup w.vault (S ++ "PublicKey") "key").1 <;> simp [h, h1]
      constructor
      · intro K hK
        simp only [r, RSAGenerator.getOrGenerateKeys, hret.1, RSAGenerator.generateKeys,
          hret.2.2, hK, RSAGenerator.storeKeysInKeyring, Keyring.setPassword, hav]
        simp [hret.2.1, pubId, privId]
      · intro hno
        simp only [r, RSAGenerator.getOrGenerateKeys, hret.1, RSAGenerator.generateKeys,
          hret.2.2]
        cases hg : cfg.generate w.genLog L with
        | error e => simp [hret.2.1]
        | ok o =>
          cases o with
          | none => simp [hret.2.1]
          | some K => exact absurd hg (hno K)
  · intro K hav hK
    simp only [regenLength] at hK
    simp [g, pubId, privId, RegenerateKeys, RSAGenerator.generateKeys, Keyring.setPassword,
      hav, hK]
  · intro h
    simp only [g, RegenerateKeys, RSAGenerator.generateKeys, Keyring.setPassword]
    simp only [regenLength] at h
    split
    · rename_i K hg
      rcases h with h | h
      · simp [h]
      · exact absurd hg (h K)
    · rfl
    · rfl
  · intro hav
    simp [a, b, GetPublicKey, GetPrivateKey, hav]
  · intro hav
    constructor
    · simp only [a, pubId, GetPublicKey, Keyring.getPassword, hav]
      cases h1 : (cfg.native.lookup w.vault (S ++ "PublicKey") "key").1 <;> simp [h1]
    · simp only [b, privId, GetPrivateKey, Keyring.getPassword, hav]
      cases h1 : (cfg.native.lookup w.vault (S ++ "PrivateKey") "key").1 <;> simp [h1]

/-- C8 on the macOS build with the map vault.  On the empty vault
`getOrGenerateKeys` and `RegenerateKeys` for `svc` write the public PEM under
`svcPublicKey` and the private PEM under `svcPrivateKey`, account `key`; on a
vault holding a pair the two getters read their own identifier. -/
theorem C8_naming_determinism_witness :
    (RSAGenerator.getOrGenerateKeys (mapConfig .apple freshGenerate none)
        (World.init MapVault.empty) "svc" 2048).2.vaultLog
      = [.get "svcPublicKey" "key", .get "svcPrivateKey" "key",
         .put "svcPublicKey" "key" "PUB-A", .put "svcPrivateKey" "key" "PRIV-A"] ∧
    (RegenerateKeys (mapConfig .apple freshGenerate none)
        (World.init MapVault.empty) [.string "svc"]).2.vaultLog
      = [.put "svcPublicKey" "key" "PUB-A", .put "svcPrivateKey" "key" "PRIV-A"] ∧
    GetPublicKey (mapConfig .apple freshGenerate none) (World.init fullVault) [.string "svc"]
      = (.string "OLD-PUB",
         { vault := fullVault, vaultLog := [.get "svcPublicKey" "key"], genLog := [] }) ∧
    (GetPrivateKey (mapConfig .apple freshGenerate none) (World.init fullVault)
        [.string "svc"]).1 = .string "OLD-PRIV" := by
  have h := C8_naming_determinism (mapConfig .apple freshGenerate none)
    (World.init MapVault.empty) "svc" 2048 []
  have h2 := C8_naming_determinism (mapConfig .apple freshGenerate none)
    (World.init fullVault) "svc" 2048 []
  refine ⟨?_, ?_, ?_, ?_⟩
  · exact (((h.2.1 (by decide)).2 (Or.inl (by decide))).1
      { publicKey := "PUB-A", privateKey := "PRIV-A" } (by decide)).2
  · exact (h.2.2.1 { publicKey := "PUB-A", privateKey := "PRIV-A" }
      (by decide) (by decide)).2
  · exact Prod.ext ((h2.2.2.2.2.2 (by decide)).1.2.trans (by decide)) (by
      rfl)
  · exact (h2.2.2.2.2.2 (by decide)).2.2.trans (by decide)

/-- C9: `RegenerateKeys(S, L)` never looks the vault up.  It invokes the
generator once at `L`, returns the public key of the generated pair, and
returns null exactly when the generator produced no pair, in which case the
vault and its log are untouched.  Over an available map vault a successful
generation leaves the new public and private PEM under the two identifiers of
`S`, whatever was stored there before. -/
theorem C9_regenerate_bypasses_cache :
    (∀ (σ : Type) (cfg : Config σ) (w : World σ) (S : String) (L : Int) (rest : List JsValue),
      let g := RegenerateKeys cfg w (.string S :: .number L :: rest)
      g.2.genLog = w.genLog ++ [L] ∧
      (∃ ops, g.2.vaultLog = w.vaultLog ++ ops ∧ ∀ s a, VaultOp.get s a ∉ ops) ∧
      (∀ K, cfg.generate w.genLog L = .ok (some K) → g.1 = .string K.publicKey) ∧
      (g.1 = .null ↔ ∀ K, cfg.generate w.genLog L ≠ .ok (some K)) ∧
      ((∀ K, cfg.generate w.genLog L ≠ .ok (some K)) →
        g.2.vault = w.vault ∧ g.2.vaultLog = w.vaultLog)) ∧
    (∀ (build : Build) (generate : List Int → Int → Except Unit (Option KeyPair))
      (envVar : Option String) (w : World MapVault) (S : String) (L : Int)
      (rest : List JsValue) (K : KeyPair),
      Keyring.isAvailable build = true → generate w.genLog L = .ok (some K) →
      let g := RegenerateKeys (mapConfig build generate envVar) w
        (.string S :: .number L :: rest)
      g.2.vault (S ++ "PublicKey") "key" = some K.publicKey ∧
      g.2.vault (S ++ "PrivateKey") "key" = some K.privateKey) := by
  constructor
  · intro σ cfg w S L rest g
    simp only [g, RegenerateKeys, RSAGenerator.generateKeys, Keyring.setPassword]
    cases hav : Keyring.isAvailable cfg.build <;>
    cases hg : cfg.generate w.genLog L with
    | error e => simp [hg]
    | ok o => cases o <;> simp [hg]
  · intro build generate envVar w S L rest K havail hgen g
    have hne := publicKeyService_ne_privateKeyService S
    simp [g, RegenerateKeys, RSAGenerator.generateKeys, Keyring.setPassword, mapConfig,
      mapNative, havail, hgen, hne]

/-- C9 on a vault that already holds a pair for `svc`: the generator runs, its
public key is returned and both stored halves are replaced. -/
theorem C9_regenerate_bypasses_cache_witness :
    (RegenerateKeys (mapConfig .apple freshGenerate none) (World.init fullVault)
        [.string "svc", .number 2048]).1 = JsResult.string "PUB-A" ∧
    (RegenerateKeys (mapConfig .apple freshGenerate none) (World.init fullVault)
        [.string "svc", .number 2048]).2.vault "svcPublicKey" "key" = some "PUB-A" ∧
    (RegenerateKeys (mapConfig .apple freshGenerate none) (World.init fullVault)
        [.string "svc", .number 2048]).2.vault "svcPrivateKey" "key" = some "PRIV-A" :=
  ⟨(C9_regenerate_bypasses_cache.1 MapVault (mapConfig .apple freshGenerate none)
      (World.init fullVault) "svc" 2048 []).2.2.1
      { publicKey := "PUB-A", privateKey := "PRIV-A" } (by decide),
   C9_regenerate_bypasses_cache.2 .apple freshGenerate none (World.init fullVault) "svc" 2048 []
      { publicKey := "PUB-A", privateKey := "PRIV-A" } (by decide) (by decide)⟩

/-- C10, as stated, fails on the code.  The decimal integer `99999999999` does
not fit an `int`, `std::stoi` throws and 2048 is returned instead of the
configured integer; the value `12abc` is not a number, yet `std::stoi` reads
its leading digits and 12 is returned instead of 2048. -/
theorem C10_counterexample :
    PlatformUtils.getRSAKeyLength (some "99999999999") = 2048 ∧
    PlatformUtils.getRSAKeyLength (some "12abc") = 12 := by
  decide

/-- C10, amended.  `getRSAKeyLength` returns 2048 when `RSA_KEY_LENGTH` is
unset.  When the value is optional white space, an optional sign, a non-empty
run of decimal digits and then any text that does not start with a digit, it
returns the signed value of the digits if that fits a 32 bit `int` and 2048
otherwise.  When no digit follows the optional white space and sign, it returns
2048.  On a platform other than Windows `GenerateKeys` hands
`getOrGenerateKeys` the second argument when that is a number and the value of
`getRSAKeyLength` in every other case. -/
theorem C10_default_bit_length_amended :
    PlatformUtils.getRSAKeyLength none = 2048 ∧
    (∀ (ws sign ds rest : List Char),
      (∀ c ∈ ws, isspace c = true) → (sign = [] ∨ sign = ['-'] ∨ sign = ['+']) →
      ds ≠ [] → (∀ c ∈ ds, c.isDigit = true) → (∀ c ∈ rest.head?, c.isDigit = false) →
      PlatformUtils.getRSAKeyLength (some (String.mk (ws ++ sign ++ ds ++ rest))) =
        (if -2147483648 ≤ (if sign = ['-'] then - digitsValue ds else digitsValue ds) ∧
            (if sign = ['-'] then - digitsValue ds else digitsValue ds) ≤ 2147483647
          then (if sign = ['-'] then - digitsValue ds else digitsValue ds) else 2048)) ∧
    (∀ (ws rest : List Char),
      (∀ c ∈ ws, isspace c = true) → (∀ c ∈ rest.head?, c.isDigit = false) →
      PlatformUtils.getRSAKeyLength (some (String.mk (ws ++ '-' :: rest))) = 2048 ∧
      PlatformUtils.getRSAKeyLength (some (String.mk (ws ++ '+' :: rest))) = 2048 ∧
      ((∀ c ∈ rest.head?, isspace c = false ∧ c ≠ '-' ∧ c ≠ '+') →
        PlatformUtils.getRSAKeyLength (some (String.mk (ws ++ rest))) = 2048)) ∧
    (∀ (σ : Type) (cfg : Config σ) (w : World σ) (S : String) (rest : List JsValue)
      (keys : Option KeyPair),
      PlatformUtils.getPlatform cfg.build ≠ Platform.Windows →
      (RSAGenerator.getOrGenerateKeys cfg w S
          (match rest with
            | .number n :: _ => n
            | _ => PlatformUtils.getRSAKeyLength cfg.getenvRsaKeyLength)).1 = .ok keys →
      GenerateKeys cfg w (.string S :: rest) =
        (publicKeyOrNull keys,
          (RSAGenerator.getOrGenerateKeys cfg w S
            (match rest with
              | .number n :: _ => n
              | _ => PlatformUtils.getRSAKeyLength cfg.getenvRsaKeyLength)).2)) := by
  refine ⟨rfl, ?_, ?_, ?_⟩
  · intro ws sign ds rest hws hsign hne hds hrest
    rcases hsign with hs | hs | hs
    · subst hs
      have h := stoi_digits ws ds rest false hws hne hds hrest [] (Or.inr ⟨rfl, Or.inr rfl⟩)
      simp only [PlatformUtils.getRSAKeyLength, h]
      have hf : (([] : List Char) = ['-']) = False := by simp
      simp only [hf, Bool.false_eq_true, ↓reduceIte]
      split_ifs <;> rfl
    · subst hs
      have h := stoi_digits ws ds rest true hws hne hds hrest ['-'] (Or.inl ⟨rfl, rfl⟩)
      simp only [PlatformUtils.getRSAKeyLength, h]
      simp only [↓reduceIte]
      split_ifs <;> rfl
    · subst hs
      have h := stoi_digits ws ds rest false hws hne hds hrest ['+'] (Or.inr ⟨rfl, Or.inl rfl⟩)
      simp only [PlatformUtils.getRSAKeyLength, h]
      have hf : (['+'] = ['-']) = False := by simp
      simp only [hf, Bool.false_eq_true, ↓reduceIte]
      split_ifs <;> rfl
  · intro ws rest hws hrest
    have h := stoi_no_digits ws rest hws hrest
    refine ⟨?_, ?_, ?_⟩
    · simp only [PlatformUtils.getRSAKeyLength, h.1]
    · simp only [PlatformUtils.getRSAKeyLength, h.2.1]
    · intro hh
      simp only [PlatformUtils.getRSAKeyLength, h.2.2 hh]
  · intro σ cfg w S rest keys hplat hk
    simp only [GenerateKeys, GenerateKeys.keyLength, hplat, ↓reduceIte]
    rw [hk]

/-- C10 amended, at the values `4096`, ` -77xyz`, `99999999999`, `abc` and on a
call of `GenerateKeys` without a key length on a Linux build. -/
theorem C10_default_bit_length_amended_witness :
    PlatformUtils.getRSAKeyLength (some "4096") = 4096 ∧
    PlatformUtils.getRSAKeyLength (some " -77xyz") = -77 ∧
    PlatformUtils.getRSAKeyLength (some "99999999999") = 2048 ∧
    PlatformUtils.getRSAKeyLength (some "abc") = 2048 ∧
    (GenerateKeys (mapConfig (.linux true) freshGenerate (some "4096"))
        (World.init MapVault.empty) [.string "svc"]).2.genLog = [4096] := by
  refine ⟨?_, ?_, ?_, ?_, ?_⟩
  · exact (C10_default_bit_length_amended.2.1 [] [] ['4', '0', '9', '6'] []
      (by decide) (by decide) (by decide) (by decide) (by decide)).trans (by decide)
  · exact (C10_default_bit_length_amended.2.1 [' '] ['-'] ['7', '7'] ['x', 'y', 'z']
      (by decide) (by decide) (by decide) (by decide) (by decide)).trans (by decide)
  · exact (C10_default_bit_length_amended.2.1 [] []
      ['9', '9', '9', '9', '9', '9', '9', '9', '9', '9', '9'] []
      (by decide) (by decide) (by decide) (by decide) (by decide)).trans (by decide)
  · exact (C10_default_bit_length_amended.2.2.1 [] ['a', 'b', 'c']
      (by decide) (by decide)).2.2 (by decide)
  · have h := C10_default_bit_length_amended.2.2.2 MapVault
      (mapConfig (.linux true) freshGenerate (some "4096")) (World.init MapVault.empty) "svc" []
      (some { publicKey := "PUB-A", privateKey := "PRIV-A" }) (by decide) (by decide)
    rw [h]
    decide

/-- C11: `getPasswordLinux` queries the generic schema first and the legacy
network schema if and only if that first lookup reported an error, and then
once.  Without an error the first lookup is final: its secret when found,
absent when nothing was found.  After an error the result is the secret of the
legacy lookup when that one reports no error, and absent when it reports an
error or finds nothing. -/
theorem C11_two_schema_lookup_fallback (lookup : SecretQuery → SecretLookup)
    (service account : String) :
    let genericQuery : SecretQuery :=
      { schema := .generic, attributes := [("service", service), ("username", account)] }
    let networkQuery : SecretQuery :=
      { schema := .compatNetwork, attributes := [("server", service), ("user", account)] }
    let r := Keyring.getPasswordLinux lookup service account
    (r.2 = [genericQuery] ∨ r.2 = [genericQuery, networkQuery]) ∧
    (networkQuery ∈ r.2 ↔ (lookup genericQuery).error = true) ∧
    r.2.count networkQuery ≤ 1 ∧
    ((lookup genericQuery).error = false → r.1 = (lookup genericQuery).password) ∧
    ((lookup genericQuery).error = true → (lookup networkQuery).error = false →
      r.1 = (lookup networkQuery).password) ∧
    ((lookup genericQuery).error = true → (lookup networkQuery).error = true →
      r.1 = none) := by
  intro genericQuery networkQuery r
  have hne : networkQuery ≠ genericQuery := by
    intro h
    have h2 : SecretSchema.compatNetwork = SecretSchema.generic :=
      congrArg SecretQuery.schema h
    exact absurd h2 (by decide)
  simp only [r, Keyring.getPasswordLinux]
  cases h1 : (lookup genericQuery).error <;> cases h2 : (lookup networkQuery).error <;>
    cases h3 : (lookup genericQuery).password <;>
    cases h4 : (lookup networkQuery).password <;>
    simp [genericQuery, networkQuery] at h1 h2 h3 h4 hne ⊢

/-- C11 at two secret services.  When the generic lookup errors and the legacy
schema holds a secret, that secret is returned after two queries.  When the
generic lookup finds nothing without error, the result is absent after one
query although the legacy schema holds a secret. -/
theorem C11_two_schema_lookup_fallback_witness :
    (Keyring.getPasswordLinux legacyOnlyLookup "svcPublicKey" "key").1
      = some "LEGACY-SECRET" ∧
    (Keyring.getPasswordLinux shadowedLookup "svcPublicKey" "key").1 = none ∧
    (Keyring.getPasswordLinux shadowedLookup "svcPublicKey" "key").2
      = [{ schema := .generic,
           attributes := [("service", "svcPublicKey"), ("username", "key")] }] := by
  have h1 := C11_two_schema_lookup_fallback legacyOnlyLookup "svcPublicKey" "key"
  have h2 := C11_two_schema_lookup_fallback shadowedLookup "svcPublicKey" "key"
  refine ⟨?_, ?_, ?_⟩
  · exact (h1.2.2.2.2.1 (by decide) (by decide)).trans (by decide)
  · exact (h2.2.2.2.1 (by decide)).trans (by decide)
  · rcases h2.1 with h | h
    · exact h
    · exact absurd ((h2.2.1).1 (by rw [h]; simp)) (by decide)

/-- C13: `RegenerateKeys` applies none of the length policy of `GenerateKeys`.
On every build and for every value of `RSA_KEY_LENGTH`, a call without a
numeric key length invokes the generator once at 2048 bits, a call with the
numeric key length `L` invokes it once at `L`, and the outcome of that one
invocation decides the result. -/
theorem C13_regenerate_ignores_length_policy {σ : Type} (cfg : Config σ) (w : World σ)
    (S : String) (L : Int) (rest : List JsValue) (x : String) :
    (RegenerateKeys cfg w [.string S]).2.genLog = w.genLog ++ [2048] ∧
    (RegenerateKeys cfg w (.string S :: .string x :: rest)).2.genLog = w.genLog ++ [2048] ∧
    (RegenerateKeys cfg w (.string S :: .other :: rest)).2.genLog = w.genLog ++ [2048] ∧
    (RegenerateKeys cfg w (.string S :: .number L :: rest)).2.genLog = w.genLog ++ [L] ∧
    (RegenerateKeys cfg w [.string S]).1
      = (match cfg.generate w.genLog 2048 with
        | .ok (some k) => JsResult.string k.publicKey
        | _ => JsResult.null) ∧
    (RegenerateKeys cfg w (.string S :: .number L :: rest)).1
      = (match cfg.generate w.genLog L with
        | .ok (some k) => JsResult.string k.publicKey
        | _ => JsResult.null) := by
  refine ⟨?_, ?_, ?_, ?_, ?_, ?_⟩ <;>
    simp only [RegenerateKeys, RSAGenerator.generateKeys, Keyring.setPassword]
  · cases hg : cfg.generate w.genLog 2048 with
    | error e => simp [hg]
    | ok o => cases o <;> cases Keyring.isAvailable cfg.build <;> simp [hg]
  · cases hg : cfg.generate w.genLog 2048 with
    | error e => simp [hg]
    | ok o => cases o <;> cases Keyring.isAvailable cfg.build <;> simp [hg]
  · cases hg : cfg.generate w.genLog 2048 with
    | error e => simp [hg]
    | ok o => cases o <;> cases Keyring.isAvailable cfg.build <;> simp [hg]
  · cases hg : cfg.generate w.genLog L with
    | error e => simp [hg]
    | ok o => cases o <;> cases Keyring.isAvailable cfg.build <;> simp [hg]
  · cases hg : cfg.generate w.genLog 2048 with
    | error e => simp [hg]
    | ok o => cases o <;> cases Keyring.isAvailable cfg.build <;> simp [hg]
  · cases hg : cfg.generate w.genLog L with
    | error e => simp [hg]
    | ok o => cases o <;> cases Keyring.isAvailable cfg.build <;> simp [hg]

end KeysGen
